import Mathlib

/-!
Shallow embedding of src/build_resume.py, a YAML-to-Markdown resume builder
with tag-based bullet filtering. Python strings are Lean strings, Python sets
of tag strings are Finset String, and Python exceptions are Except values:
an .error result models a raised exception, an .ok result the returned value.
-/

/-- Python str.strip on a character list: drop whitespace at both ends. -/
def stripChars (l : List Char) : List Char :=
  ((l.dropWhile Char.isWhitespace).reverse.dropWhile Char.isWhitespace).reverse

/-- Python str.strip. -/
def pyStrip (s : String) : String :=
  String.mk (stripChars s.data)

/-- Python str.lower, on the ASCII range. -/
def pyLower (s : String) : String :=
  String.mk (s.data.map Char.toLower)

/-- Python s.replace of a CRLF pair by LF, scanning left to right. -/
def replCRLF : List Char → List Char
  | [] => []
  | '\r' :: '\n' :: rest => '\n' :: replCRLF rest
  | c :: rest => c :: replCRLF rest

/-- md_escape from the source: unify CRLF line endings to LF, then strip
surrounding whitespace. -/
def md_escape (s : String) : String :=
  pyStrip (String.mk (replCRLF s.data))

/-- Python sep.join applied to a list of strings. -/
def pyJoin (sep : String) : List String → String
  | [] => ""
  | [a] => a
  | a :: b :: t => a ++ sep ++ pyJoin sep (b :: t)

/-- A YAML tags value as norm_tags receives it: absent (None), a single
string, or a list of values (already coerced to strings by str). -/
inductive TagsVal where
  | none : TagsVal
  | str : String → TagsVal
  | list : List String → TagsVal

/-- norm_tags from the source: normalize a tags value to a set of
lowercased, stripped strings; the empty set for an absent value. -/
def norm_tags : TagsVal → Finset String
  | .none => ∅
  | .str s => {pyStrip (pyLower s)}
  | .list l => (l.map fun t => pyStrip (pyLower t)).toFinset

/-- bullet_included from the source. Exclusion always wins; an empty
include set accepts; otherwise mode any tests intersection with the include
set and mode all tests inclusion of the include set; unknown mode values
raise ValueError. -/
def bullet_included (bullet_tags inc exc : Finset String) (mode : String) :
    Except String Bool :=
  if exc.Nonempty ∧ (bullet_tags ∩ exc).Nonempty then
    .ok false
  else if inc = ∅ then
    .ok true
  else if mode = "any" then
    .ok (decide (bullet_tags ∩ inc).Nonempty)
  else if mode = "all" then
    .ok (decide (inc ⊆ bullet_tags))
  else
    .error ("Unknown mode: " ++ mode)

/-- C1: if the bullet tag set intersects the exclude set, bullet_included
returns false, whatever the include set and the mode. -/
theorem bullet_included_exclude_wins
    (tags inc exc : Finset String) (mode : String)
    (h : (tags ∩ exc).Nonempty) :
    bullet_included tags inc exc mode = .ok false := by
  have hexc : exc.Nonempty := by
    obtain ⟨x, hx⟩ := h
    exact ⟨x, (Finset.mem_inter.mp hx).2⟩
  simp [bullet_included, hexc, h]

/-- Witness for C1 at a concrete input: tags and exclude share the tag
java, include and mode are arbitrary, and the bullet is rejected. -/
theorem bullet_included_exclude_wins_witness :
    (({"java"} : Finset String) ∩ {"java"}).Nonempty ∧
      bullet_included {"java"} {"python"} {"java"} "weird" = .ok false :=
  ⟨by decide, bullet_included_exclude_wins {"java"} {"python"} {"java"} "weird" (by decide)⟩

/-- Helper: with no exclusion hit and a nonempty include set, mode any
returns the intersection test. -/
theorem bullet_included_any
    (tags inc exc : Finset String)
    (h1 : tags ∩ exc = ∅) (h2 : inc ≠ ∅) :
    bullet_included tags inc exc "any" = .ok (decide (tags ∩ inc).Nonempty) := by
  have hni : ¬ (exc.Nonempty ∧ (tags ∩ exc).Nonempty) := by
    simp [h1]
  unfold bullet_included
  rw [if_neg hni, if_neg h2, if_pos rfl]

/-- Helper: with no exclusion hit and a nonempty include set, mode all
returns the subset test. -/
theorem bullet_included_all
    (tags inc exc : Finset String)
    (h1 : tags ∩ exc = ∅) (h2 : inc ≠ ∅) :
    bullet_included tags inc exc "all" = .ok (decide (inc ⊆ tags)) := by
  have hni : ¬ (exc.Nonempty ∧ (tags ∩ exc).Nonempty) := by
    simp [h1]
  unfold bullet_included
  rw [if_neg hni, if_neg h2, if_neg (by decide), if_pos rfl]

/-- C2: when the bullet tag set avoids the exclude set and the include set
is nonempty, mode any accepts exactly on a nonempty intersection with the
include set, and mode all accepts exactly when the include set is a subset
of the bullet tag set. -/
theorem bullet_included_modes
    (tags inc exc : Finset String)
    (h1 : tags ∩ exc = ∅) (h2 : inc.Nonempty) :
    (bullet_included tags inc exc "any" = .ok true ↔ (tags ∩ inc).Nonempty) ∧
      (bullet_included tags inc exc "all" = .ok true ↔ inc ⊆ tags) := by
  have h2' : inc ≠ ∅ := Finset.nonempty_iff_ne_empty.mp h2
  constructor
  · rw [bullet_included_any tags inc exc h1 h2']
    simp
  · rw [bullet_included_all tags inc exc h1 h2']
    simp

/-- Witness for C2 at concrete inputs: tags = {java, aws}, include =
{java}, exclude = {go}; the hypotheses hold and mode any accepts exactly
when the tag set meets the include set. -/
theorem bullet_included_modes_witness :
    (({"java", "aws"} : Finset String) ∩ {"go"} = ∅ ∧
        ({"java"} : Finset String).Nonempty) ∧
      (bullet_included {"java", "aws"} {"java"} {"go"} "any" = .ok true ↔
        (({"java", "aws"} : Finset String) ∩ {"java"}).Nonempty) := by
  refine ⟨⟨by decide, by decide⟩, ?_⟩
  exact (bullet_included_modes {"java", "aws"} {"java"} {"go"} (by decide) (by decide)).1

/-- C3: when the bullet tag set avoids the exclude set and the include set
is empty, bullet_included returns true for every mode value. -/
theorem bullet_included_empty_include
    (tags exc : Finset String) (mode : String)
    (h : tags ∩ exc = ∅) :
    bullet_included tags ∅ exc mode = .ok true := by
  have hni : ¬ (exc.Nonempty ∧ (tags ∩ exc).Nonempty) := by
    simp [h]
  unfold bullet_included
  rw [if_neg hni, if_pos rfl]

/-- Witness for C3 at a concrete input, with a mode outside any and all. -/
theorem bullet_included_empty_include_witness :
    (({"python"} : Finset String) ∩ {"java"} = ∅) ∧
      bullet_included {"python"} ∅ {"java"} "weird" = .ok true :=
  ⟨by decide, bullet_included_empty_include {"python"} {"java"} "weird" (by decide)⟩

/-- A bullet as the renderers read it: the text value (defaulting to the
empty string) and the raw tags value. -/
structure Bullet where
  text : String
  tags : TagsVal

/-- A skills entry with header and skill text. -/
structure Skill where
  header : String
  skill : String

/-- An experience role; missing string fields default to the empty string
and missing bullets to the empty list, as the source's get calls do. -/
structure Role where
  company : String
  title : String
  location : String
  dates : String
  bullets : List Bullet

/-- A project entry. -/
structure Project where
  name : String
  dates : String
  bullets : List Bullet

/-- An education entry. -/
structure Edu where
  school : String
  detail : String
  year : String

/-- The resume document: every field optional, none modelling a missing
or null YAML key. -/
structure Doc where
  name : Option String
  location : Option String
  phone : Option String
  email : Option String
  summary : Option String
  skills : Option (List Skill)
  experience : Option (List Role)
  projects : Option (List Project)
  education : Option (List Edu)

/-- The contact line fragments of render_header: location, phone, email,
kept when present and nonempty, each md_escaped. -/
def contactBits (d : Doc) : List String :=
  [d.location, d.phone, d.email].filterMap fun o =>
    match o with
    | Option.none => Option.none
    | Option.some v => if v = "" then Option.none else Option.some (md_escape v)

/-- render_header from the source: a hash heading with the name, a rule,
and an optional contact line. -/
def render_header (d : Doc) : String :=
  pyJoin "\n"
    ([pyStrip ("# " ++ md_escape (d.name.getD "")), "", "----", "\n"] ++
      (if contactBits d = [] then []
       else ["### " ++ pyJoin " • " (contactBits d)]) ++
      [""])

/-- render_summary from the source: empty output for a missing or empty
summary, otherwise the escaped summary and a blank line. -/
def render_summary (d : Doc) : String :=
  match d.summary with
  | Option.none => ""
  | Option.some s => if s = "" then "" else pyJoin "\n" [md_escape s, "\n"]

/-- render_skills from the source. -/
def render_skills (d : Doc) : String :=
  let skills := d.skills.getD []
  if skills.isEmpty then ""
  else
    pyJoin "\n"
      (["## Technical Skills", "", "----", "\n"] ++
        skills.map (fun s =>
          "- **" ++ md_escape (md_escape s.header) ++ "** " ++
            md_escape (md_escape s.skill)) ++
        [""])

/-- The kept-bullet loop shared by render_experience and render_projects:
escape each bullet text, and keep it when it is nonempty and
bullet_included accepts its normalized tags. A ValueError raised by
bullet_included propagates. -/
def keptBullets : List Bullet → Finset String → Finset String → String →
    Except String (List String)
  | [], _, _, _ => .ok []
  | b :: bs, inc, exc, mode =>
    let text := md_escape b.text
    if text ≠ "" then
      match bullet_included (norm_tags b.tags) inc exc mode with
      | .error e => .error e
      | .ok keep =>
        match keptBullets bs inc exc mode with
        | .error e => .error e
        | .ok rest => if keep then .ok (text :: rest) else .ok rest
    else
      keptBullets bs inc exc mode

/-- The bullet block of a role or project: the kept texts as dash lines,
or the placeholder line when nothing survived. -/
def bulletLines (kept : List String) : List String :=
  if kept = [] then ["- (No bullets matched selected tags.)"]
  else kept.map fun t => "- " ++ t

/-- The company and title heading of a role. -/
def heading_company (r : Role) : String :=
  pyStrip ("**" ++ md_escape r.company ++ " — " ++ md_escape r.title ++ "**")

/-- The location and dates heading of a role. -/
def heading_location (r : Role) : String :=
  pyStrip (md_escape r.location ++ " (" ++ md_escape r.dates ++ ")")

/-- The output lines one role contributes in render_experience. -/
def roleLines (r : Role) (inc exc : Finset String) (mode : String) :
    Except String (List String) :=
  match keptBullets r.bullets inc exc mode with
  | .error e => .error e
  | .ok kept =>
    .ok ([heading_company r, heading_location r, ""] ++ bulletLines kept ++ [""])

/-- render_experience from the source. -/
def render_experience (d : Doc) (inc exc : Finset String) (mode : String) :
    Except String String :=
  let exp := d.experience.getD []
  if exp.isEmpty then .ok ""
  else
    match exp.mapM (fun r => roleLines r inc exc mode) with
    | .error e => .error e
    | .ok lss =>
      .ok (pyJoin "\n" (["## Professional Experience", "", "----", "\n"] ++ lss.flatten))

/-- The name and dates heading of a project. -/
def heading_project (p : Project) : String :=
  pyStrip ("**" ++ md_escape p.name ++ "** (" ++ md_escape p.dates ++ ")")

/-- The output lines one project contributes in render_projects. -/
def projLines (p : Project) (inc exc : Finset String) (mode : String) :
    Except String (List String) :=
  match keptBullets p.bullets inc exc mode with
  | .error e => .error e
  | .ok kept => .ok ([heading_project p, ""] ++ bulletLines kept ++ [""])

/-- render_projects from the source. -/
def render_projects (d : Doc) (inc exc : Finset String) (mode : String) :
    Except String String :=
  let projects := d.projects.getD []
  if projects.isEmpty then .ok ""
  else
    match projects.mapM (fun p => projLines p inc exc mode) with
    | .error e => .error e
    | .ok lss => .ok (pyJoin "\n" (["## Projects", "", "----", "\n"] ++ lss.flatten))

/-- render_education from the source. -/
def render_education (d : Doc) : String :=
  let edu := d.education.getD []
  if edu.isEmpty then ""
  else
    pyJoin "\n"
      (["## Education", "", "----", "\n"] ++
        edu.map (fun e =>
          "- " ++ pyJoin ", "
            (([md_escape e.school, md_escape e.detail, md_escape e.year]).filter
              fun b => b ≠ "")) ++
        [""])

/-- build_md from the source: render the six sections in order, keep the
nonempty ones, join with newlines, strip, and append one newline. -/
def build_md (d : Doc) (inc exc : Finset String) (mode : String) :
    Except String String :=
  match render_experience d inc exc mode with
  | .error e => .error e
  | .ok e =>
    match render_projects d inc exc mode with
    | .error er => .error er
    | .ok p =>
      .ok (pyStrip (pyJoin "\n"
        (([render_header d, render_summary d, render_skills d, e, p,
           render_education d]).filter fun s => s ≠ "")) ++ "\n")

/-- The argparse choices check on the mode argument: main only accepts
any or all and exits with an invalid-argument error otherwise, before the
input is read or the output written. -/
def parse_mode (mode : String) : Except String String :=
  if mode = "any" ∨ mode = "all" then .ok mode
  else .error ("invalid choice: " ++ mode)

/-- The comma-split, strip and lowercase of a tags command-line argument. -/
def splitArgTags (s : String) : Finset String :=
  (((s.splitOn ",").filter fun t => pyStrip t ≠ "").map fun t =>
    pyLower (pyStrip t)).toFinset

/-- main from the source, over an already loaded document: validate the
mode, build the include and exclude sets, and build the Markdown. The ok
payload is exactly the text written to the output file; an error aborts
with nothing written. -/
def mainModel (d : Doc) (includeArg excludeArg modeArg : String) :
    Except String String :=
  match parse_mode modeArg with
  | .error e => .error e
  | .ok mode => build_md d (splitArgTags includeArg) (splitArgTags excludeArg) mode

/-- Helper: a bullet whose escaped text is empty is skipped by the kept
loop, whatever its tags, the filter sets and the mode. -/
theorem keptBullets_cons_of_empty_text
    (b : Bullet) (bs : List Bullet) (inc exc : Finset String) (mode : String)
    (h : md_escape b.text = "") :
    keptBullets (b :: bs) inc exc mode = keptBullets bs inc exc mode := by
  simp [keptBullets, h]

/-- Helper: with empty include and exclude sets, the kept loop returns
exactly the escaped texts of the bullets whose escaped text is nonempty,
in their original order. -/
theorem keptBullets_empty_filter (bs : List Bullet) (mode : String) :
    keptBullets bs ∅ ∅ mode =
      .ok ((bs.map fun b => md_escape b.text).filter fun t => t ≠ "") := by
  induction bs with
  | nil => rfl
  | cons b t ih =>
    by_cases h : md_escape b.text = ""
    · simp [keptBullets, h, ih]
    · have hbi : bullet_included (norm_tags b.tags) ∅ ∅ mode = .ok true :=
        bullet_included_empty_include (norm_tags b.tags) ∅ mode (Finset.inter_empty _)
      simp [keptBullets, h, hbi, ih]

/-- C4 (amended): with empty include and exclude sets, the kept-bullet
list of every role and project is exactly its bullets with nonempty
escaped text, as escaped text, in original order; and the rendered lines
of the role or project contain those bullet lines in that order. -/
theorem empty_filter_reproduces_bullets :
    (∀ (bs : List Bullet) (mode : String),
      keptBullets bs ∅ ∅ mode =
        .ok ((bs.map fun b => md_escape b.text).filter fun t => t ≠ "")) ∧
      (∀ (r : Role) (mode : String), ∃ ls,
        roleLines r ∅ ∅ mode = .ok ls ∧
          List.Sublist
            ((((r.bullets.map fun b => md_escape b.text).filter
              fun t => t ≠ "").map fun t => "- " ++ t)) ls) ∧
      (∀ (p : Project) (mode : String), ∃ ls,
        projLines p ∅ ∅ mode = .ok ls ∧
          List.Sublist
            ((((p.bullets.map fun b => md_escape b.text).filter
              fun t => t ≠ "").map fun t => "- " ++ t)) ls) := by
  have hsub : ∀ kept : List String,
      List.Sublist (kept.map fun t => "- " ++ t) (bulletLines kept) := by
    intro kept
    by_cases hk : kept = []
    · simp [hk]
    · simp [bulletLines, hk]
  refine ⟨keptBullets_empty_filter, fun r mode => ?_, fun p mode => ?_⟩
  · refine ⟨_, by rw [roleLines, keptBullets_empty_filter], ?_⟩
    exact ((hsub _).trans (List.sublist_append_right _ _)).trans
      (List.sublist_append_left _ _)
  · refine ⟨_, by rw [projLines, keptBullets_empty_filter], ?_⟩
    exact ((hsub _).trans (List.sublist_append_right _ _)).trans
      (List.sublist_append_left _ _)

/-- C4 counterexample: a bullet whose text is a single space is dropped
even with empty include and exclude sets; the role renders the placeholder
line and the source bullet list is not reproduced. -/
theorem empty_filter_drops_blank_bullet :
    keptBullets [⟨" ", TagsVal.none⟩] ∅ ∅ "any" = .ok [] ∧
      roleLines ⟨"Acme", "Dev", "NYC", "2020", [⟨" ", TagsVal.none⟩]⟩ ∅ ∅ "any" =
        .ok ["**Acme — Dev**", "NYC (2020)", "",
          "- (No bullets matched selected tags.)", ""] ∧
      ([] : List String) ≠ [" "] := by
  refine ⟨rfl, rfl, by decide⟩

/-- C5: a role or project whose kept-bullet list is empty renders its
headings, the placeholder line, and a closing blank line, and nothing
else: the bullet block is never an empty list. -/
theorem zero_survivors_render_placeholder :
    (∀ (r : Role) (inc exc : Finset String) (mode : String),
      keptBullets r.bullets inc exc mode = .ok [] →
      roleLines r inc exc mode =
        .ok ([heading_company r, heading_location r, ""] ++
          ["- (No bullets matched selected tags.)"] ++ [""])) ∧
      (∀ (p : Project) (inc exc : Finset String) (mode : String),
        keptBullets p.bullets inc exc mode = .ok [] →
        projLines p inc exc mode =
          .ok ([heading_project p, ""] ++
            ["- (No bullets matched selected tags.)"] ++ [""])) := by
  constructor
  · intro r inc exc mode h
    rw [roleLines, h]
    simp [bulletLines]
  · intro p inc exc mode h
    rw [projLines, h]
    simp [bulletLines]

/-- Witness for C5: a role whose only bullet carries an excluded tag keeps
no bullets and renders the placeholder line. -/
theorem zero_survivors_render_placeholder_witness :
    roleLines ⟨"C", "T", "L", "D", [⟨"x", TagsVal.str "secret"⟩]⟩ ∅ {"secret"} "any" =
      .ok ([heading_company ⟨"C", "T", "L", "D", [⟨"x", TagsVal.str "secret"⟩]⟩,
          heading_location ⟨"C", "T", "L", "D", [⟨"x", TagsVal.str "secret"⟩]⟩, ""] ++
        ["- (No bullets matched selected tags.)"] ++ [""]) :=
  zero_survivors_render_placeholder.1
    ⟨"C", "T", "L", "D", [⟨"x", TagsVal.str "secret"⟩]⟩ ∅ {"secret"} "any" (by rfl)

/-- C10: a bullet whose escaped text is empty contributes nothing: the
kept loop skips it even when its tags pass the filter, and a role or
project renders identically with and without it, so it does not count for
the placeholder decision. -/
theorem blank_text_bullet_ignored :
    (∀ (b : Bullet) (bs : List Bullet) (inc exc : Finset String) (mode : String),
      md_escape b.text = "" →
      keptBullets (b :: bs) inc exc mode = keptBullets bs inc exc mode) ∧
      (∀ (r : Role) (b : Bullet) (bs : List Bullet) (inc exc : Finset String)
        (mode : String), md_escape b.text = "" →
        roleLines { r with bullets := b :: bs } inc exc mode =
          roleLines { r with bullets := bs } inc exc mode) ∧
      (∀ (p : Project) (b : Bullet) (bs : List Bullet) (inc exc : Finset String)
        (mode : String), md_escape b.text = "" →
        projLines { p with bullets := b :: bs } inc exc mode =
          projLines { p with bullets := bs } inc exc mode) := by
  refine ⟨keptBullets_cons_of_empty_text, ?_, ?_⟩
  · intro r b bs inc exc mode h
    simp [roleLines, heading_company, heading_location,
      keptBullets_cons_of_empty_text b bs inc exc mode h]
  · intro p b bs inc exc mode h
    simp [projLines, heading_project,
      keptBullets_cons_of_empty_text b bs inc exc mode h]

/-- Witness for C10: a whitespace-only bullet tagged java is skipped even
though its tag is in the include set. -/
theorem blank_text_bullet_ignored_witness :
    keptBullets [⟨"  ", TagsVal.str "java"⟩] {"java"} ∅ "any" =
      keptBullets [] {"java"} ∅ "any" :=
  blank_text_bullet_ignored.1 ⟨"  ", TagsVal.str "java"⟩ [] {"java"} ∅ "any" (by decide)

/-- C6: a mode outside any and all makes the modelled program abort with
the argparse invalid-choice error before anything is written (the error
result carries no output), and the bullet_included predicate itself raises
the unknown-mode ValueError whenever it reaches the mode dispatch. -/
theorem invalid_mode_aborts :
    (∀ (d : Doc) (includeArg excludeArg mode : String),
      mode ≠ "any" → mode ≠ "all" →
      mainModel d includeArg excludeArg mode =
        .error ("invalid choice: " ++ mode)) ∧
      (∀ (tags inc exc : Finset String) (mode : String),
        tags ∩ exc = ∅ → inc ≠ ∅ → mode ≠ "any" → mode ≠ "all" →
        bullet_included tags inc exc mode = .error ("Unknown mode: " ++ mode)) := by
  constructor
  · intro d iA eA mode h1 h2
    have hp : parse_mode mode = .error ("invalid choice: " ++ mode) := by
      unfold parse_mode
      rw [if_neg (by simp [h1, h2])]
    rw [mainModel, hp]
  · intro tags inc exc mode he hi h1 h2
    have hni : ¬ (exc.Nonempty ∧ (tags ∩ exc).Nonempty) := by
      simp [he]
    unfold bullet_included
    rw [if_neg hni, if_neg hi, if_neg h1, if_neg h2]

/-- Witness for C6: mode weird aborts the modelled program with the
invalid-choice error. -/
theorem invalid_mode_aborts_witness :
    mainModel
      ⟨Option.none, Option.none, Option.none, Option.none, Option.none,
        Option.none, Option.none, Option.none, Option.none⟩ "" "" "weird" =
      .error ("invalid choice: " ++ "weird") :=
  invalid_mode_aborts.1
    ⟨Option.none, Option.none, Option.none, Option.none, Option.none,
      Option.none, Option.none, Option.none, Option.none⟩ "" "" "weird"
    (by decide) (by decide)

/-- Unfolding equation of pyJoin on a list of at least two elements. -/
theorem pyJoin_cons_cons (sep a b : String) (t : List String) :
    pyJoin sep (a :: b :: t) = a ++ sep ++ pyJoin sep (b :: t) := rfl

/-- pyJoin with a newline separator over at least two elements is never
the empty string: the separator alone contributes a character. -/
theorem pyJoin_newline_ne_empty (a b : String) (t : List String) :
    pyJoin "\n" (a :: b :: t) ≠ "" := by
  intro h
  have hl := congrArg String.length h
  rw [pyJoin_cons_cons, String.length_append, String.length_append] at hl
  have h1 : ("\n" : String).length = 1 := rfl
  have h0 : ("" : String).length = 0 := rfl
  rw [h1, h0] at hl
  omega

/-- The header renderer always emits at least its heading and rule lines:
its output is never the empty string, whatever the document. -/
theorem render_header_ne_empty (d : Doc) : render_header d ≠ "" := by
  unfold render_header
  exact pyJoin_newline_ne_empty _ _ _

/-- The document with every field missing. -/
def emptyDoc : Doc :=
  ⟨Option.none, Option.none, Option.none, Option.none, Option.none,
    Option.none, Option.none, Option.none, Option.none⟩

/-- C7 counterexample: with every header field missing, render_header
still returns a nonempty block (hash heading plus rule), so the header
renderer does not return the empty string on missing fields. -/
theorem render_header_nonempty_on_empty_doc : render_header emptyDoc ≠ "" := by
  decide

/-- C7 (amended): the summary, skills, experience, projects and education
renderers return the empty string when their fields are missing or empty,
and such empty sections leave no trace in the assembled output; the header
renderer alone always returns a nonempty block. -/
theorem sections_empty_render_empty :
    (∀ d : Doc, d.summary = Option.none ∨ d.summary = Option.some "" →
      render_summary d = "") ∧
      (∀ d : Doc, d.skills.getD [] = [] → render_skills d = "") ∧
      (∀ (d : Doc) (inc exc : Finset String) (mode : String),
        d.experience.getD [] = [] → render_experience d inc exc mode = .ok "") ∧
      (∀ (d : Doc) (inc exc : Finset String) (mode : String),
        d.projects.getD [] = [] → render_projects d inc exc mode = .ok "") ∧
      (∀ d : Doc, d.education.getD [] = [] → render_education d = "") ∧
      (∀ (d : Doc) (inc exc : Finset String) (mode : String),
        d.summary = Option.none → d.skills = Option.none →
        d.experience = Option.none → d.projects = Option.none →
        d.education = Option.none →
        build_md d inc exc mode = .ok (pyStrip (render_header d) ++ "\n")) ∧
      (∀ d : Doc, render_header d ≠ "") := by
  refine ⟨?_, ?_, ?_, ?_, ?_, ?_, render_header_ne_empty⟩
  · intro d h
    rcases h with h | h <;> simp [render_summary, h]
  · intro d h
    simp [render_skills, h]
  · intro d inc exc mode h
    simp [render_experience, h]
  · intro d inc exc mode h
    simp [render_projects, h]
  · intro d h
    simp [render_education, h]
  · intro d inc exc mode h1 h2 h3 h4 h5
    have hsum : render_summary d = "" := by simp [render_summary, h1]
    have hsk : render_skills d = "" := by simp [render_skills, h2]
    have hexp : render_experience d inc exc mode = .ok "" := by
      simp [render_experience, h3]
    have hproj : render_projects d inc exc mode = .ok "" := by
      simp [render_projects, h4]
    have hedu : render_education d = "" := by simp [render_education, h5]
    unfold build_md
    rw [hexp, hproj]
    simp [hsum, hsk, hedu, render_header_ne_empty d, pyJoin]

/-- Witness for C7 at the all-missing document. -/
theorem sections_empty_render_empty_witness :
    render_summary emptyDoc = "" ∧
      build_md emptyDoc ∅ ∅ "any" = .ok (pyStrip (render_header emptyDoc) ++ "\n") :=
  ⟨sections_empty_render_empty.1 emptyDoc (Or.inl rfl),
    sections_empty_render_empty.2.2.2.2.2.1 emptyDoc ∅ ∅ "any" rfl rfl rfl rfl rfl⟩

/-- The last character surviving pyStrip, if any, is not whitespace. -/
theorem stripChars_getLast (l : List Char) :
    (stripChars l).getLast? = Option.none ∨
      ∃ c, (stripChars l).getLast? = Option.some c ∧ c.isWhitespace = false := by
  unfold stripChars
  cases hh : ((l.dropWhile Char.isWhitespace).reverse.dropWhile Char.isWhitespace).head? with
  | none =>
    left
    rw [List.getLast?_reverse, hh]
  | some c =>
    right
    refine ⟨c, by rw [List.getLast?_reverse, hh], ?_⟩
    have hnw := List.head?_dropWhile_not Char.isWhitespace
      ((l.dropWhile Char.isWhitespace).reverse)
    rw [hh] at hnw
    exact hnw

/-- The last character of a stripped string, if any, is not whitespace. -/
theorem pyStrip_data_getLast (s : String) :
    (pyStrip s).data.getLast? = Option.none ∨
      ∃ c, (pyStrip s).data.getLast? = Option.some c ∧ c.isWhitespace = false :=
  stripChars_getLast s.data

/-- C8: whenever build_md returns, its output is the newline-join of the
nonempty rendered sections in the fixed order header, summary, skills,
experience, projects, education, stripped and followed by one final
newline; and since stripping removed any trailing whitespace, the output
ends in exactly one newline character. -/
theorem build_md_assembles_sections
    (d : Doc) (inc exc : Finset String) (mode : String) (out : String)
    (h : build_md d inc exc mode = .ok out) :
    (∃ e p, render_experience d inc exc mode = .ok e ∧
        render_projects d inc exc mode = .ok p ∧
        out = pyStrip (pyJoin "\n"
          (([render_header d, render_summary d, render_skills d, e, p,
             render_education d]).filter fun s => s ≠ "")) ++ "\n") ∧
      (∃ t, out = t ++ "\n" ∧
        (t.data.getLast? = Option.none ∨
          ∃ c, t.data.getLast? = Option.some c ∧ c.isWhitespace = false)) := by
  cases he : render_experience d inc exc mode with
  | error e =>
    unfold build_md at h
    rw [he] at h
    simp at h
  | ok e =>
    cases hp : render_projects d inc exc mode with
    | error er =>
      unfold build_md at h
      rw [he, hp] at h
      simp at h
    | ok p =>
      unfold build_md at h
      rw [he, hp] at h
      simp only [Except.ok.injEq] at h
      refine ⟨⟨e, p, rfl, rfl, h.symm⟩, ⟨pyStrip (pyJoin "\n"
        (([render_header d, render_summary d, render_skills d, e, p,
           render_education d]).filter fun s => s ≠ "")), h.symm, ?_⟩⟩
      exact pyStrip_data_getLast _

/-- A small concrete resume document exercising every section. -/
def sampleDoc : Doc :=
  ⟨Option.some "Ada", Option.some "NYC", Option.none, Option.some "ada@b.c",
    Option.some "Builds things.",
    Option.some [⟨"Langs:", "Lean"⟩],
    Option.some [⟨"Acme", "Dev", "NYC", "2020", [⟨"Did X", TagsVal.str "java"⟩]⟩],
    Option.some [⟨"Tool", "2021", [⟨"Made Y", TagsVal.none⟩]⟩],
    Option.some [⟨"MIT", "BS", "2019"⟩]⟩

/-- Witness for C8 at the sample document: build_md succeeds and its
output ends in exactly one newline. -/
theorem build_md_assembles_sections_witness :
    ∃ out, build_md sampleDoc ∅ ∅ "any" = .ok out ∧
      (∃ t, out = t ++ "\n" ∧
        (t.data.getLast? = Option.none ∨
          ∃ c, t.data.getLast? = Option.some c ∧ c.isWhitespace = false)) := by
  obtain ⟨out, hout⟩ : ∃ out, build_md sampleDoc ∅ ∅ "any" = .ok out := ⟨_, rfl⟩
  exact ⟨out, hout, (build_md_assembles_sections sampleDoc ∅ ∅ "any" out hout).2⟩

/-- C9 counterexample: norm_tags lowercases and also strips surrounding
whitespace, so on the single tag a-with-spaces it returns the stripped
singleton, not the merely lowercased one. -/
theorem norm_tags_strips_whitespace :
    norm_tags (TagsVal.str " A ") = {"a"} ∧
      ({"a"} : Finset String) ≠ {" a "} := by
  constructor
  · rfl
  · decide

/-- C9 (amended): norm_tags returns the empty set for an absent tags
value, the singleton of the lowercased and stripped tag for a single
string, and for a list the set of its members lowercased and stripped. -/
theorem norm_tags_characterization :
    norm_tags TagsVal.none = ∅ ∧
      (∀ s : String, norm_tags (TagsVal.str s) = {pyStrip (pyLower s)}) ∧
      (∀ (l : List String) (x : String),
        x ∈ norm_tags (TagsVal.list l) ↔ ∃ t ∈ l, pyStrip (pyLower t) = x) := by
  refine ⟨rfl, fun s => rfl, fun l x => ?_⟩
  simp [norm_tags]
